import Mathlib

/-!
Verification of the order-management service in `app/main.go` (mock mode).

The development shallowly embeds the in-memory storage backend
(`InMemoryStore`, `InMemoryTx`, `InMemoryDB`, `InMemoryRow`) and the
HTTP-facing workflow functions (`createOrderHandler`, `getOrderHandler`,
`getProductsHandler`) of the Go source.  Conventions of the embedding:

* Go `float64` currency arithmetic is embedded as exact arithmetic on `ℚ`;
  `math.Pow(10, 2)` is exactly `100`, and `int(x)` conversion truncates
  toward zero, which on the branch-selected arguments of `round` is a
  floor (nonnegative branch) or a ceiling (negative branch).
* Go maps become association lists (`lookupA` / `upsert`); a Go map `range`
  loop is modelled by an explicit iteration order, a list that is a
  permutation of the entries (Go randomizes map iteration order).
* `time.Time` is an opaque integer timestamp, `uuid.New().String()` is an
  explicit `String` parameter.
* Dynamically typed scan values (`interface` values) become `GoValue`;
  the destination pointer types of a `Scan` call become `Dest`; a failed
  type assertion (`val.(string)` on a non-string) is a distinct `panicked`
  outcome, separate from a returned error.
* Methods that mutate the store through a pointer receiver are embedded in
  state-passing style, returning the new `InMemoryStore` next to their
  result; read-only methods return the store unchanged.
-/

namespace OrderApp

/-- A dynamically typed value stored in a mock row (an `interface` value
in the Go source); the four scalar types the store traffics in. -/
inductive GoValue where
  | vString (s : String)
  | vFloat (q : ℚ)
  | vInt (n : Int)
  | vTime (t : Int)
deriving DecidableEq

/-- The type of a destination pointer handed to `Scan`: the four supported
pointer types of the `switch` in `InMemoryRow.Scan`, plus the default
(unsupported) case. -/
inductive Dest where
  | dString
  | dFloat
  | dInt
  | dTime
  | dOther
deriving DecidableEq

/-- An error value: `sql.ErrNoRows` (preserved through `fmt.Errorf` with
the `%w` verb, as tested by `errors.Is`) or any other error, carrying its
message text. -/
inductive GoErr where
  | noRows
  | message (s : String)
deriving DecidableEq

/-- Outcome of `InMemoryRow.Scan`: a successful scan (with the values
assigned through the destination pointers), a returned error, or a
run-time panic raised by a failed type assertion. -/
inductive ScanOutcome where
  | ok (vals : List GoValue)
  | scanError (e : GoErr)
  | panicked
deriving DecidableEq

/-- Go map read `m[k]`: the value at the first entry with key `k`. -/
def lookupA {K V : Type} [DecidableEq K] : List (K × V) → K → Option V
  | [], _ => none
  | (k', v') :: rest, k => if k' = k then some v' else lookupA rest k

/-- Go map write `m[k] = v`: replace the first entry with key `k`, or
append a fresh entry when the key is absent. -/
def upsert {K V : Type} [DecidableEq K] : List (K × V) → K → V → List (K × V)
  | [], k, v => [(k, v)]
  | (k', v') :: rest, k, v =>
    if k' = k then (k, v) :: rest else (k', v') :: upsert rest k v

/-- A row of the `products` table (`DBProduct` in the source). -/
structure DBProduct where
  id : Int
  name : String
  price : ℚ
  vatRate : ℚ
deriving DecidableEq

/-- A row of the `orders` table (`OrderRecord` in the source). -/
structure OrderRecord where
  orderID : String
  totalPrice : ℚ
  vatAmount : ℚ
  createdAt : Int
deriving DecidableEq

/-- A row of the `order_items` table (`OrderItemRecord` in the source). -/
structure OrderItemRecord where
  itemID : Int
  orderID : String
  productID : Int
  quantity : Int
  unitPrice : ℚ
  itemVAT : ℚ
deriving DecidableEq

/-- The in-memory store: the three tables and the `SERIAL` counter for
item ids (`InMemoryStore` in the source; the `sync.RWMutex` makes each
single operation atomic, so executions are interleavings of the
operations embedded here). -/
structure InMemoryStore where
  products : List (Int × DBProduct)
  orders : List (String × OrderRecord)
  orderItems : List (String × List OrderItemRecord)
  nextItemID : Int
deriving DecidableEq

/-- Constructor `NewInMemoryStore`: empty tables, item counter at 1. -/
def NewInMemoryStore : InMemoryStore :=
  { products := [], orders := [], orderItems := [], nextItemID := 1 }

/-- Method `(*InMemoryStore).Populate`: the five sample products, written by
successive map assignments. -/
def InMemoryStore.Populate (s : InMemoryStore) : InMemoryStore :=
  let p1 := upsert s.products 1 ⟨1, "Laptop Pro", 1499.99, 0.22⟩
  let p2 := upsert p1 2 ⟨2, "Wireless Mouse", 79.99, 0.22⟩
  let p3 := upsert p2 3 ⟨3, "Mechanical Keyboard", 129.99, 0.22⟩
  let p4 := upsert p3 4 ⟨4, "4K Monitor", 649.50, 0.22⟩
  let p5 := upsert p4 5 ⟨5, "HD Monitor", 150.50, 0.15⟩
  { s with products := p5 }

/-- The store the mock-mode process starts with
(`NewInMemoryStore()` followed by `store.Populate()` in `main`). -/
def populatedStore : InMemoryStore := NewInMemoryStore.Populate

/-- Go `func round(num float64) int`: `int(num + math.Copysign(0.5, num))`.
`int()` truncates toward zero; on the nonnegative branch the argument is
nonnegative so truncation is the floor, on the negative branch the
argument is negative so truncation is the ceiling. -/
def round (num : ℚ) : Int :=
  if 0 ≤ num then Int.floor (num + 1/2) else Int.ceil (num - 1/2)

/-- Go `func toFixed(num float64, precision int) float64`. -/
def toFixed (num : ℚ) (precision : Nat) : ℚ :=
  let output : ℚ := 10 ^ precision
  ((round (num * output) : ℚ)) / output

/-- A mock row (`InMemoryRow` in the source): the field values and an
optional pre-set error. -/
structure InMemoryRow where
  data : List GoValue
  err : Option GoErr

/-- Does a destination pointer type accept a stored value, i.e. does the
type assertion in the corresponding `case` of `InMemoryRow.Scan`
succeed? -/
def destAccepts : Dest → GoValue → Bool
  | .dString, .vString _ => true
  | .dFloat, .vFloat _ => true
  | .dInt, .vInt _ => true
  | .dTime, .vTime _ => true
  | _, _ => false

/-- The assignment loop of `InMemoryRow.Scan`, after the arity check: for
each position, the `default` case of the type switch returns an error, a
matching type assertion assigns the stored value, and a failing type
assertion panics. -/
def scanAssign : List GoValue → List Dest → ScanOutcome
  | [], [] => .ok []
  | v :: vs, d :: ds =>
    if d = Dest.dOther then
      .scanError (.message "unsupported type for scan")
    else if destAccepts d v then
      match scanAssign vs ds with
      | .ok rest => .ok (v :: rest)
      | other => other
    else
      .panicked
  | _, _ => .scanError (.message "scan loop arity mismatch")

/-- Go `func (r *InMemoryRow) Scan(dest ...interface) error`: pre-set error
first, then the arity check, then the assignment loop. -/
def InMemoryRow.Scan (r : InMemoryRow) (dests : List Dest) : ScanOutcome :=
  match r.err with
  | some e => .scanError e
  | none =>
    if dests.length ≠ r.data.length then
      .scanError (.message ("scan error: expected " ++ toString r.data.length
        ++ " dest values, got " ++ toString dests.length))
    else
      scanAssign r.data dests

/-- The `sql.Result` as produced by the mock (`InMemoryResult`). -/
structure InMemoryResult where
  rowsAffected : Int
deriving DecidableEq

/-- Go `func (tx *InMemoryTx) Commit() error`: a no-op returning nil. -/
def InMemoryTx.Commit : Option GoErr := none

/-- Go `func (tx *InMemoryTx) Rollback() error`: a no-op returning nil. -/
def InMemoryTx.Rollback : Option GoErr := none

/-- Case of `InMemoryTx.QueryRow` on
`SELECT id, name, price, vat_rate FROM products WHERE id = $1`:
a data row on a hit, `sql.ErrNoRows` on a miss; the store is not
written. -/
def InMemoryTx.queryRowProduct (s : InMemoryStore) (productID : Int) : InMemoryRow :=
  match lookupA s.products productID with
  | some p => ⟨[.vInt p.id, .vString p.name, .vFloat p.price, .vFloat p.vatRate], none⟩
  | none => ⟨[], some .noRows⟩

/-- Case of `InMemoryTx.QueryRow` on
`INSERT INTO order_items ... RETURNING item_id;`: builds the record with
the current `nextItemID`, appends it to the bucket of its order id, bumps
the counter, and returns the assigned id as a one-column row.  The write
is applied to the store immediately (no transaction buffering). -/
def InMemoryTx.queryRowInsertItem (s : InMemoryStore) (orderID : String)
    (productID quantity : Int) (unitPrice itemVAT : ℚ) :
    InMemoryRow × InMemoryStore :=
  let item : OrderItemRecord :=
    ⟨s.nextItemID, orderID, productID, quantity, unitPrice, itemVAT⟩
  (⟨[.vInt item.itemID], none⟩,
   { s with
       orderItems :=
         upsert s.orderItems orderID ((lookupA s.orderItems orderID).getD [] ++ [item]),
       nextItemID := s.nextItemID + 1 })

/-- Case of `InMemoryTx.Exec` on
`INSERT INTO orders (order_id, total_price, vat_amount, created_at) VALUES ...`:
unconditionally writes the header under its order id (a plain map
assignment, so an existing header with the same id is replaced) and
reports one affected row. -/
def InMemoryTx.execInsertOrder (s : InMemoryStore) (orderID : String)
    (totalPrice vatAmount : ℚ) (createdAt : Int) :
    Except GoErr InMemoryResult × InMemoryStore :=
  (.ok ⟨1⟩, { s with orders := upsert s.orders orderID ⟨orderID, totalPrice, vatAmount, createdAt⟩ })

/-- Case of `InMemoryTx.Exec` on
`UPDATE orders SET total_price = $1, vat_amount = $2 WHERE order_id = $3`:
overwrites the totals of an existing header, or fails when the order id
is unknown. -/
def InMemoryTx.execUpdateTotals (s : InMemoryStore) (totalPrice vatAmount : ℚ)
    (orderID : String) : Except GoErr InMemoryResult × InMemoryStore :=
  match lookupA s.orders orderID with
  | some order =>
    let updated := { order with totalPrice := totalPrice, vatAmount := vatAmount }
    (.ok ⟨1⟩, { s with orders := upsert s.orders orderID updated })
  | none => (.error (.message ("order not found for update: " ++ orderID)), s)

/-- Go `func (db *InMemoryDB) Exec(...)`: always the error
`exec should be called on a transaction, not directly on the DB`,
whatever the statement and arguments; the store is untouched. -/
def InMemoryDB.Exec (s : InMemoryStore) (_query : String) (_args : List GoValue) :
    Except GoErr InMemoryResult × InMemoryStore :=
  (.error (.message "exec should be called on a transaction, not directly on the DB"), s)

/-- Case of `InMemoryDB.QueryRow` on
`SELECT order_id, total_price, vat_amount, created_at FROM orders WHERE order_id = $1`:
read-only header lookup. -/
def InMemoryDB.queryRowOrder (s : InMemoryStore) (orderID : String) :
    InMemoryRow × InMemoryStore :=
  (match lookupA s.orders orderID with
   | some o => ⟨[.vString o.orderID, .vFloat o.totalPrice, .vFloat o.vatAmount, .vTime o.createdAt], none⟩
   | none => ⟨[], some .noRows⟩,
   s)

/-- Case of `InMemoryDB.Query` on `SELECT id, name, price, vat_rate FROM products`:
the `range` loop over the products map emits one row per entry; `iter` is
the iteration order Go happened to choose, a permutation of the map
entries (hypothesised where it matters). -/
def InMemoryDB.queryProducts (s : InMemoryStore) (iter : List (Int × DBProduct)) :
    List (List GoValue) × InMemoryStore :=
  (iter.map (fun kv =>
    [.vInt kv.2.id, .vString kv.2.name, .vFloat kv.2.price, .vFloat kv.2.vatRate]),
   s)

/-- Case of `InMemoryDB.Query` on
`SELECT product_id, quantity, unit_price, item_vat FROM order_items WHERE order_id = $1`:
the bucket of the order id, in insertion order (a Go slice, so iteration
is deterministic); an unknown order id yields no rows. -/
def InMemoryDB.queryOrderItems (s : InMemoryStore) (orderID : String) :
    List (List GoValue) × InMemoryStore :=
  (((lookupA s.orderItems orderID).getD []).map (fun it =>
    [.vInt it.productID, .vInt it.quantity, .vFloat it.unitPrice, .vFloat it.itemVAT]),
   s)

/-- Result of a store-facing helper: the Go `(value, error)` pair, with a
separate constructor for a propagated run-time panic. -/
inductive FetchResult (α : Type) where
  | ok (a : α)
  | err (e : GoErr)
  | panicked
deriving DecidableEq

/-- Go `func GetProductByID(executor TxExecutor, productID int)`:
`QueryRow` on the products table, then
`row.Scan(&ID, &Name, &Price, &VATRate)`; `sql.ErrNoRows` is wrapped
with `%w` and so still satisfies `errors.Is(err, sql.ErrNoRows)`. -/
def GetProductByID (s : InMemoryStore) (productID : Int) : FetchResult DBProduct :=
  let row := InMemoryTx.queryRowProduct s productID
  match row.Scan [Dest.dInt, Dest.dString, Dest.dFloat, Dest.dFloat] with
  | .ok [.vInt i, .vString n, .vFloat p, .vFloat v] => .ok ⟨i, n, p, v⟩
  | .ok _ => .panicked
  | .scanError e => .err e
  | .panicked => .panicked

/-- Go `func InsertOrder(executor TxExecutor, order *OrderRecord) error`:
the header insert (totals and timestamp taken from the record), its error
wrapped with context. -/
def InsertOrder (s : InMemoryStore) (order : OrderRecord) :
    Option GoErr × InMemoryStore :=
  match InMemoryTx.execInsertOrder s order.orderID order.totalPrice order.vatAmount order.createdAt with
  | (.ok _, s') => (none, s')
  | (.error e, s') => (some e, s')

/-- Go `func UpdateOrderTotals(executor TxExecutor, orderID string, totalPrice, vatAmount float64) error`:
rounds both totals with `toFixed(_, 2)` before the UPDATE. -/
def UpdateOrderTotals (s : InMemoryStore) (orderID : String)
    (totalPrice vatAmount : ℚ) : Option GoErr × InMemoryStore :=
  match InMemoryTx.execUpdateTotals s (toFixed totalPrice 2) (toFixed vatAmount 2) orderID with
  | (.ok _, s') => (none, s')
  | (.error e, s') => (some e, s')

/-- Go `func InsertOrderItem(executor TxExecutor, item *OrderItemRecord) (int, error)`:
the item insert, scanning the returned one-column row into an `int`. -/
def InsertOrderItem (s : InMemoryStore) (item : OrderItemRecord) :
    FetchResult Int × InMemoryStore :=
  let rs := InMemoryTx.queryRowInsertItem s item.orderID item.productID
    item.quantity item.unitPrice item.itemVAT
  (match rs.1.Scan [Dest.dInt] with
   | .ok [.vInt i] => .ok i
   | .ok _ => .panicked
   | .scanError e => .err e
   | .panicked => .panicked,
   rs.2)

/-- An item of the request body (`IncomingOrderItem`). -/
structure IncomingOrderItem where
  productID : Int
  quantity : Int
deriving DecidableEq

/-- An item of the response body (`OutgoingOrderItem`): `price` is the
unit price, `itemVAT` the `vat` JSON field. -/
structure OutgoingOrderItem where
  productID : Int
  quantity : Int
  price : ℚ
  itemVAT : ℚ
deriving DecidableEq

/-- The response body of order creation and retrieval (`OutgoingOrder`):
`totalOrderPrice` is the `order_price` field, `vatAmount` the
`order_vat` field. -/
structure OutgoingOrder where
  orderID : String
  totalOrderPrice : ℚ
  vatAmount : ℚ
  items : List OutgoingOrderItem
deriving DecidableEq

/-- The `rows.Next()/rows.Scan` loop of `GetOrderItemsByOrderID`: scan
each row into `(&ProductID, &Quantity, &Price, &ItemVAT)`, stopping at
the first failure. -/
def scanItemRows : List (List GoValue) → FetchResult (List OutgoingOrderItem)
  | [] => .ok []
  | row :: rest =>
    match InMemoryRow.Scan ⟨row, none⟩ [Dest.dInt, Dest.dInt, Dest.dFloat, Dest.dFloat] with
    | .ok [.vInt pid, .vInt q, .vFloat pr, .vFloat v] =>
      match scanItemRows rest with
      | .ok items => .ok (⟨pid, q, pr, v⟩ :: items)
      | other => other
    | .ok _ => .panicked
    | .scanError e => .err e
    | .panicked => .panicked

/-- Go `func GetOrderItemsByOrderID(executor DBExecutor, orderID string)`. -/
def GetOrderItemsByOrderID (s : InMemoryStore) (orderID : String) :
    FetchResult (List OutgoingOrderItem) × InMemoryStore :=
  let rs := InMemoryDB.queryOrderItems s orderID
  (scanItemRows rs.1, rs.2)

/-- Go `func GetOrderByID(executor DBExecutor, orderID string)`: header
lookup and scan, then the item join, assembled into the receipt. -/
def GetOrderByID (s : InMemoryStore) (orderID : String) :
    FetchResult OutgoingOrder × InMemoryStore :=
  let rs := InMemoryDB.queryRowOrder s orderID
  match rs.1.Scan [Dest.dString, Dest.dFloat, Dest.dFloat, Dest.dTime] with
  | .ok [.vString oid, .vFloat tp, .vFloat va, .vTime _] =>
    let is := GetOrderItemsByOrderID rs.2 orderID
    (match is.1 with
     | .ok items => .ok ⟨oid, tp, va, items⟩
     | .err e => .err e
     | .panicked => .panicked,
     is.2)
  | .ok _ => (.panicked, rs.2)
  | .scanError e => (.err e, rs.2)
  | .panicked => (.panicked, rs.2)

/-- The `rows.Next()/rows.Scan` loop of `GetAllProducts`: scan each row
into `(&ID, &Name, &Price, &VATRate)`. -/
def scanProductRows : List (List GoValue) → FetchResult (List DBProduct)
  | [] => .ok []
  | row :: rest =>
    match InMemoryRow.Scan ⟨row, none⟩ [Dest.dInt, Dest.dString, Dest.dFloat, Dest.dFloat] with
    | .ok [.vInt i, .vString n, .vFloat p, .vFloat v] =>
      match scanProductRows rest with
      | .ok ps => .ok (⟨i, n, p, v⟩ :: ps)
      | other => other
    | .ok _ => .panicked
    | .scanError e => .err e
    | .panicked => .panicked

/-- Go `func GetAllProducts(executor DBExecutor)`, against the mock backend:
`iter` is the iteration order of the products map chosen by the Go
runtime for this call. -/
def GetAllProducts (s : InMemoryStore) (iter : List (Int × DBProduct)) :
    FetchResult (List DBProduct) × InMemoryStore :=
  let rs := InMemoryDB.queryProducts s iter
  (scanProductRows rs.1, rs.2)

/-- A catalog product as serialized by `GET /products` (`Product`). -/
structure Product where
  id : Int
  name : String
  price : ℚ
  vatRate : ℚ
deriving DecidableEq

/-- Response of `GET /products`. -/
inductive ProductsResponse where
  | ok (ps : List Product)
  | serverError (e : GoErr)
  | panicked
deriving DecidableEq

/-- Go `func getProductsHandler(executor DBExecutor)`: list the catalog,
re-wrap each row as a public `Product`; a nil slice is serialized as an
empty array. -/
def getProductsHandler (s : InMemoryStore) (iter : List (Int × DBProduct)) :
    ProductsResponse × InMemoryStore :=
  let rs := GetAllProducts s iter
  (match rs.1 with
   | .ok products => .ok (products.map (fun p => ⟨p.id, p.name, p.price, p.vatRate⟩))
   | .err e => .serverError e
   | .panicked => .panicked,
   rs.2)

/-- Response of `GET /orders/{id}`. -/
inductive GetOrderResponse where
  | ok (o : OutgoingOrder)
  | notFound
  | serverError (e : GoErr)
  | panicked
deriving DecidableEq

/-- Go `func getOrderHandler(executor DBExecutor)`: 404 exactly when the
failure satisfies `errors.Is(err, sql.ErrNoRows)`. -/
def getOrderHandler (s : InMemoryStore) (orderID : String) :
    GetOrderResponse × InMemoryStore :=
  let rs := GetOrderByID s orderID
  (match rs.1 with
   | .ok o => .ok o
   | .err .noRows => .notFound
   | .err e => .serverError e
   | .panicked => .panicked,
   rs.2)

/-- Response of `POST /order`: the HTTP statuses the handler can write. -/
inductive CreateResponse where
  | created (o : OutgoingOrder)
  | badRequest (msg : String)
  | notFound (msg : String)
  | serverError (msg : String)
  | panicked
deriving DecidableEq

/-- An observable interaction of `createOrderHandler` with the store
abstraction, used to state which operations a request performed. -/
inductive Ev where
  | beginTx
  | commitTx
  | rollbackTx
  | evGetProduct (productID : Int)
  | evInsertOrder (orderID : String)
  | evInsertItem (orderID : String) (productID : Int)
  | evUpdateTotals (orderID : String)
deriving DecidableEq

/-- What `createOrderHandler` produced: the HTTP response, the store
after the request, and the trace of store interactions. -/
structure HandlerOut where
  response : CreateResponse
  store : InMemoryStore
  trace : List Ev
deriving DecidableEq

/-- The per-item loop of `createOrderHandler`: resolve the product
through the transaction, validate the quantity, compute the line
amounts (per-unit VAT for the item, quantity-scaled VAT for the order
total), and persist the item snapshot.  State, accumulators and the
response slice are threaded exactly as the Go loop mutates them. -/
def processItems (orderID : String) :
    InMemoryStore → List IncomingOrderItem → ℚ → ℚ →
    List OutgoingOrderItem → List Ev →
    (Sum CreateResponse (ℚ × ℚ × List OutgoingOrderItem)) × InMemoryStore × List Ev
  | s, [], totalOrderPrice, vatAmount, outgoingItems, tr =>
    (.inr (totalOrderPrice, vatAmount, outgoingItems), s, tr)
  | s, item :: rest, totalOrderPrice, vatAmount, outgoingItems, tr =>
    let tr1 := tr ++ [Ev.evGetProduct item.productID]
    match GetProductByID s item.productID with
    | .err .noRows =>
      (.inl (.notFound ("Product with ID " ++ toString item.productID ++ " not found")), s, tr1)
    | .err _ =>
      (.inl (.serverError ("Database error fetching product " ++ toString item.productID)), s, tr1)
    | .panicked => (.inl .panicked, s, tr1)
    | .ok product =>
      if item.quantity ≤ 0 then
        (.inl (.badRequest ("Quantity for product " ++ toString item.productID ++ " must be positive")), s, tr1)
      else
        let itemTotalPrice := product.price * (item.quantity : ℚ)
        let itemVAT := product.price * product.vatRate
        let totalOrderPrice' := totalOrderPrice + itemTotalPrice
        let vatAmount' := vatAmount + itemVAT * (item.quantity : ℚ)
        let outgoingItems' := outgoingItems ++
          [⟨item.productID, item.quantity, product.price, toFixed itemVAT 2⟩]
        let ins := InsertOrderItem s ⟨0, orderID, item.productID, item.quantity, product.price, toFixed itemVAT 2⟩
        let tr2 := tr1 ++ [Ev.evInsertItem orderID item.productID]
        match ins.1 with
        | .ok _ => processItems orderID ins.2 rest totalOrderPrice' vatAmount' outgoingItems' tr2
        | .err _ => (.inl (.serverError "Failed to insert order item"), ins.2, tr2)
        | .panicked => (.inl .panicked, ins.2, tr2)

/-- Go `func createOrderHandler(executor DBExecutor)`, for an already
decoded request body: reject an empty item list before `Begin`; insert
the placeholder header; run the item loop; persist the rounded totals;
commit.  `orderID` stands for `uuid.New().String()` and `createdAt` for
`time.Now()`.  The deferred `Rollback` (a mock no-op) runs at every exit
after `Begin`. -/
def createOrderHandler (s : InMemoryStore) (orderID : String) (createdAt : Int)
    (items : List IncomingOrderItem) : HandlerOut :=
  if items.length = 0 then
    ⟨.badRequest "Order must contain at least one item", s, []⟩
  else
    let orderRecord : OrderRecord := ⟨orderID, 0, 0, createdAt⟩
    let ins := InsertOrder s orderRecord
    match ins.1 with
    | some _ =>
      ⟨.serverError "Failed to insert order", ins.2,
       [Ev.beginTx, Ev.evInsertOrder orderID, Ev.rollbackTx]⟩
    | none =>
      let loop := processItems orderID ins.2 items 0 0 []
        [Ev.beginTx, Ev.evInsertOrder orderID]
      match loop.1 with
      | .inl resp => ⟨resp, loop.2.1, loop.2.2 ++ [Ev.rollbackTx]⟩
      | .inr acc =>
        let upd := UpdateOrderTotals loop.2.1 orderID acc.1 acc.2.1
        match upd.1 with
        | some _ =>
          ⟨.serverError "Failed to update order totals", upd.2,
           loop.2.2 ++ [Ev.evUpdateTotals orderID, Ev.rollbackTx]⟩
        | none =>
          match InMemoryTx.Commit with
          | some _ =>
            ⟨.serverError "Failed to commit transaction", upd.2,
             loop.2.2 ++ [Ev.evUpdateTotals orderID, Ev.commitTx, Ev.rollbackTx]⟩
          | none =>
            ⟨.created ⟨orderID, toFixed acc.1 2, toFixed acc.2.1 2, acc.2.2⟩, upd.2,
             loop.2.2 ++ [Ev.evUpdateTotals orderID, Ev.commitTx, Ev.rollbackTx]⟩

/-- All item ids currently present in the store, across every order. -/
def allItemIDs (s : InMemoryStore) : List Int :=
  (s.orderItems.map (fun kv => kv.2.map OrderItemRecord.itemID)).flatten

/-- One atomic store operation: each mock method holds the store lock for
its whole body, so any execution — concurrent order creations included —
is an interleaving, i.e. a list of these operations. -/
inductive TxOp where
  | opInsertOrder (orderID : String) (totalPrice vatAmount : ℚ) (createdAt : Int)
  | opUpdateTotals (totalPrice vatAmount : ℚ) (orderID : String)
  | opInsertItem (orderID : String) (productID quantity : Int) (unitPrice itemVAT : ℚ)
  | opQueryRowProduct (productID : Int)
  | opQueryRowOrder (orderID : String)
  | opQueryProducts
  | opQueryOrderItems (orderID : String)
  | opDBExec (query : String)

/-- The effect of one atomic store operation on the store. -/
def applyTxOp (s : InMemoryStore) : TxOp → InMemoryStore
  | .opInsertOrder oid tp va t => (InMemoryTx.execInsertOrder s oid tp va t).2
  | .opUpdateTotals tp va oid => (InMemoryTx.execUpdateTotals s tp va oid).2
  | .opInsertItem oid pid q up iv => (InMemoryTx.queryRowInsertItem s oid pid q up iv).2
  | .opQueryRowProduct _ => s
  | .opQueryRowOrder oid => (InMemoryDB.queryRowOrder s oid).2
  | .opQueryProducts => s
  | .opQueryOrderItems oid => (InMemoryDB.queryOrderItems s oid).2
  | .opDBExec q => (InMemoryDB.Exec s q []).2

/-- A sequence of atomic store operations, applied in order. -/
def applyTxOps (s : InMemoryStore) : List TxOp → InMemoryStore
  | [] => s
  | op :: ops => applyTxOps (applyTxOp s op) ops

/-- The item-id invariant: every stored item id is below the counter, and
the stored ids are pairwise distinct. -/
def ItemInv (s : InMemoryStore) : Prop :=
  (∀ id ∈ allItemIDs s, id < s.nextItemID) ∧ (allItemIDs s).Nodup

/-- Sum of `unit_price * quantity` over the request items, prices read
from a product table (0 for an unknown product id, a case that cannot
occur on an accepted order). -/
def sumPrice (prods : List (Int × DBProduct)) : List IncomingOrderItem → ℚ
  | [] => 0
  | it :: rest =>
    (match lookupA prods it.productID with
     | some p => p.price * (it.quantity : ℚ)
     | none => 0) + sumPrice prods rest

/-- Sum of `unit_price * vat_rate * quantity` over the request items. -/
def sumVat (prods : List (Int × DBProduct)) : List IncomingOrderItem → ℚ
  | [] => 0
  | it :: rest =>
    (match lookupA prods it.productID with
     | some p => p.price * p.vatRate * (it.quantity : ℚ)
     | none => 0) + sumVat prods rest

/-- The response items an accepted order is specified to carry: one item
per request line, quantity preserved, unit price from the catalog, and a
per-unit VAT rounded to two decimals. -/
def specOuts (prods : List (Int × DBProduct)) : List IncomingOrderItem → List OutgoingOrderItem
  | [] => []
  | it :: rest =>
    (match lookupA prods it.productID with
     | some p => [⟨it.productID, it.quantity, p.price, toFixed (p.price * p.vatRate) 2⟩]
     | none => []) ++ specOuts prods rest

/-- A store holding one order header under id a, for the claim C5
counterexample. -/
def dupStore : InMemoryStore := { NewInMemoryStore with orders := [("a", ⟨"a", 5, 7, 3⟩)] }

/-- Reading back the key just written returns the written value. -/
theorem lookupA_upsert {K V : Type} [DecidableEq K] (l : List (K × V)) (k : K) (v : V) :
    lookupA (upsert l k v) k = some v := by
  induction l with
  | nil => simp [upsert, lookupA]
  | cons kv rest ih =>
    by_cases h : kv.1 = k
    · simp [upsert, lookupA, h]
    · simp [upsert, lookupA, h, ih]

/-- Writing one key leaves every other key unchanged. -/
theorem lookupA_upsert_ne {K V : Type} [DecidableEq K] (l : List (K × V)) (k k' : K) (v : V) (h : k ≠ k') :
    lookupA (upsert l k v) k' = lookupA l k' := by
  induction l with
  | nil => simp [upsert, lookupA, h]
  | cons kv rest ih =>
    by_cases hk : kv.1 = k
    · subst hk
      simp [upsert, lookupA, h]
    · simp [upsert, lookupA, hk, ih]

/-- Evaluation rule for `toFixed _ 2` on a nonnegative value: it returns
`z / 100` for the integer `z` with `z ≤ 100q + 1/2 < z + 1`. -/
theorem toFixed_two_eq (q : ℚ) (z : Int) (h0 : 0 ≤ q)
    (h1 : (z : ℚ) ≤ q * 100 + 1/2) (h2 : q * 100 + 1/2 < z + 1) :
    toFixed q 2 = (z : ℚ) / 100 := by
  have hout : ((10 : ℚ) ^ (2 : Nat)) = 100 := by norm_num
  have hq : (0 : ℚ) ≤ q * 100 := by positivity
  have hfloor : Int.floor (q * 100 + 1/2) = z := Int.floor_eq_iff.mpr ⟨h1, by linarith⟩
  simp only [toFixed, round, hout]
  rw [if_pos hq, hfloor]

/-- Inserting one record into its order bucket adds exactly its item id
to the store-wide id multiset. -/
theorem ids_upsert_bucket (l : List (String × List OrderItemRecord))
    (k : String) (item : OrderItemRecord) :
    List.Perm
      ((upsert l k ((lookupA l k).getD [] ++ [item])).map (fun kv => kv.2.map OrderItemRecord.itemID)).flatten
      (item.itemID :: (l.map (fun kv => kv.2.map OrderItemRecord.itemID)).flatten) := by
  induction l with
  | nil =>
    simp only [lookupA, upsert, Option.getD_none, List.nil_append, List.map_cons, List.map_nil,
      List.flatten_cons, List.flatten_nil, List.map_singleton, List.append_nil]
    exact List.Perm.refl _
  | cons kv rest ih =>
    by_cases h : kv.1 = k
    · simp only [lookupA, upsert, h, if_true, Option.getD_some, List.map_cons,
        List.flatten_cons, List.map_append, List.map_singleton]
      rw [List.append_assoc]
      exact List.perm_middle
    · simp only [lookupA, upsert, h, if_false, List.map_cons, List.flatten_cons]
      exact (List.Perm.append_left _ ih).trans List.perm_middle

/-- No single store operation decreases the item id counter. -/
theorem nextItemID_le_applyTxOp (s : InMemoryStore) (op : TxOp) :
    s.nextItemID ≤ (applyTxOp s op).nextItemID := by
  cases op with
  | opInsertOrder oid tp va t => simp [applyTxOp, InMemoryTx.execInsertOrder]
  | opUpdateTotals tp va oid =>
    simp only [applyTxOp, InMemoryTx.execUpdateTotals]
    cases lookupA s.orders oid <;> simp
  | opInsertItem oid pid q up iv =>
    simp [applyTxOp, InMemoryTx.queryRowInsertItem]
  | opQueryRowProduct pid => exact le_refl _
  | opQueryRowOrder oid => exact le_refl _
  | opQueryProducts => exact le_refl _
  | opQueryOrderItems oid => exact le_refl _
  | opDBExec q => exact le_refl _

/-- The item id counter never decreases along any operation sequence. -/
theorem nextItemID_le_applyTxOps (ops : List TxOp) :
    ∀ s : InMemoryStore, s.nextItemID ≤ (applyTxOps s ops).nextItemID := by
  induction ops with
  | nil => intro s; exact le_refl _
  | cons op rest ih =>
    intro s
    exact le_trans (nextItemID_le_applyTxOp s op) (ih (applyTxOp s op))

/-- An item insert adds exactly the current counter value to the stored ids. -/
theorem allItemIDs_insertItem (s : InMemoryStore) (oid : String)
    (pid q : Int) (up iv : ℚ) :
    List.Perm (allItemIDs (InMemoryTx.queryRowInsertItem s oid pid q up iv).2)
      (s.nextItemID :: allItemIDs s) := by
  simpa [allItemIDs, InMemoryTx.queryRowInsertItem] using
    ids_upsert_bucket s.orderItems oid ⟨s.nextItemID, oid, pid, q, up, iv⟩

/-- An item insert preserves the item-id invariant. -/
theorem itemInv_insertItem (s : InMemoryStore) (oid : String)
    (pid q : Int) (up iv : ℚ) (h : ItemInv s) :
    ItemInv (InMemoryTx.queryRowInsertItem s oid pid q up iv).2 := by
  obtain ⟨hlt, hnd⟩ := h
  have hperm := allItemIDs_insertItem s oid pid q up iv
  have hnext : (InMemoryTx.queryRowInsertItem s oid pid q up iv).2.nextItemID = s.nextItemID + 1 := by
    simp [InMemoryTx.queryRowInsertItem]
  constructor
  · intro id hid
    have : id ∈ s.nextItemID :: allItemIDs s := hperm.mem_iff.mp hid
    rw [hnext]
    rcases List.mem_cons.mp this with h1 | h1
    · omega
    · exact lt_trans (hlt id h1) (by omega)
  · refine (List.Perm.nodup_iff hperm).mpr ?_
    refine List.nodup_cons.mpr ⟨?_, hnd⟩
    intro hmem
    exact absurd (hlt _ hmem) (by omega)

/-- Every single store operation preserves the item-id invariant. -/
theorem itemInv_applyTxOp (s : InMemoryStore) (op : TxOp) (h : ItemInv s) :
    ItemInv (applyTxOp s op) := by
  cases op with
  | opInsertOrder oid tp va t =>
    have : allItemIDs (applyTxOp s (.opInsertOrder oid tp va t)) = allItemIDs s := rfl
    exact ⟨fun id hid => h.1 id (this ▸ hid), this ▸ h.2⟩
  | opUpdateTotals tp va oid =>
    obtain ⟨hlt, hnd⟩ := h
    simp only [applyTxOp, InMemoryTx.execUpdateTotals]
    cases lookupA s.orders oid with
    | some o => exact ⟨fun id hid => hlt id hid, hnd⟩
    | none => exact ⟨hlt, hnd⟩
  | opInsertItem oid pid q up iv => exact itemInv_insertItem s oid pid q up iv h
  | opQueryRowProduct pid => exact h
  | opQueryRowOrder oid =>
    simp only [applyTxOp, InMemoryDB.queryRowOrder]
    exact h
  | opQueryProducts => exact h
  | opQueryOrderItems oid =>
    simp only [applyTxOp, InMemoryDB.queryOrderItems]
    exact h
  | opDBExec q => exact h

/-- Operation sequences preserve the item-id invariant. -/
theorem itemInv_applyTxOps (ops : List TxOp) :
    ∀ s : InMemoryStore, ItemInv s → ItemInv (applyTxOps s ops) := by
  induction ops with
  | nil => intro s h; exact h
  | cons op rest ih =>
    intro s h
    exact ih (applyTxOp s op) (itemInv_applyTxOp s op h)

/-- The mock-mode initial store satisfies the item-id invariant. -/
theorem itemInv_populated : ItemInv populatedStore := by
  constructor
  · intro id hid
    simp [allItemIDs, populatedStore, NewInMemoryStore, InMemoryStore.Populate] at hid
  · simp [allItemIDs, populatedStore, NewInMemoryStore, InMemoryStore.Populate]

/-- A catalog hit scans back into exactly the stored product. -/
theorem getProduct_found (s : InMemoryStore) (pid : Int) (p : DBProduct)
    (h : lookupA s.products pid = some p) : GetProductByID s pid = .ok p := by
  simp [GetProductByID, InMemoryTx.queryRowProduct, h, InMemoryRow.Scan, scanAssign, destAccepts]

/-- A catalog miss surfaces as a wrapped sql.ErrNoRows. -/
theorem getProduct_missing (s : InMemoryStore) (pid : Int)
    (h : lookupA s.products pid = none) : GetProductByID s pid = .err .noRows := by
  simp [GetProductByID, InMemoryTx.queryRowProduct, h, InMemoryRow.Scan]

/-- A successful product fetch pins the catalog entry it came from. -/
theorem getProduct_ok_lookup (s : InMemoryStore) (pid : Int) (p : DBProduct)
    (h : GetProductByID s pid = .ok p) : lookupA s.products pid = some p := by
  cases hl : lookupA s.products pid with
  | some q =>
    rw [getProduct_found s pid q hl] at h
    cases h
    rfl
  | none =>
    rw [getProduct_missing s pid hl] at h
    cases h

/-- An item insert returns the current value of the item id counter. -/
theorem insertOrderItem_fst (s : InMemoryStore) (item : OrderItemRecord) :
    (InsertOrderItem s item).1 = .ok s.nextItemID := by
  simp [InsertOrderItem, InMemoryTx.queryRowInsertItem, InMemoryRow.Scan, scanAssign, destAccepts]

/-- Store shape after an item insert: the record, carrying the counter
value as its id, is appended to the bucket of its order, and the counter
is bumped. -/
theorem insertOrderItem_snd (s : InMemoryStore) (item : OrderItemRecord) :
    (InsertOrderItem s item).2 =
      { s with
          orderItems := upsert s.orderItems item.orderID
            ((lookupA s.orderItems item.orderID).getD [] ++
              [⟨s.nextItemID, item.orderID, item.productID, item.quantity, item.unitPrice, item.itemVAT⟩]),
          nextItemID := s.nextItemID + 1 } := by
  simp [InsertOrderItem, InMemoryTx.queryRowInsertItem]

/-- An early exit of the item loop is always an error status, never a
`created` response. -/
theorem processItems_inl_ne_created (oid : String) :
    ∀ (pending : List IncomingOrderItem) (s : InMemoryStore) (total vat : ℚ)
      (outs : List OutgoingOrderItem) (tr : List Ev) (r : CreateResponse)
      (s' : InMemoryStore) (tr' : List Ev) (o : OutgoingOrder),
      processItems oid s pending total vat outs tr = (.inl r, s', tr') →
      r ≠ .created o := by
  intro pending
  induction pending with
  | nil =>
    intro s total vat outs tr r s' tr' o h
    simp [processItems] at h
  | cons item rest ih =>
    intro s total vat outs tr r s' tr' o h
    simp only [processItems] at h
    split at h
    · simp only [Prod.mk.injEq, Sum.inl.injEq] at h
      obtain ⟨h1, -, -⟩ := h
      subst h1
      simp
    · simp only [Prod.mk.injEq, Sum.inl.injEq] at h
      obtain ⟨h1, -, -⟩ := h
      subst h1
      simp
    · simp only [Prod.mk.injEq, Sum.inl.injEq] at h
      obtain ⟨h1, -, -⟩ := h
      subst h1
      simp
    · by_cases hq : item.quantity ≤ 0
      · rw [if_pos hq] at h
        simp only [Prod.mk.injEq, Sum.inl.injEq] at h
        obtain ⟨h1, -, -⟩ := h
        subst h1
        simp
      · rw [if_neg hq] at h
        rw [insertOrderItem_fst] at h
        exact ih _ _ _ _ _ _ _ _ _ h

/-- What a successful pass of the item loop guarantees: the running
totals grow by the specified sums, the response slice grows by the
specified items, catalog and headers are untouched, quantities stay
positive, and the order bucket grows by records carrying exactly the
response item fields. -/
theorem processItems_inr (oid : String) :
    ∀ (pending : List IncomingOrderItem) (s : InMemoryStore) (total vat : ℚ)
      (outs : List OutgoingOrderItem) (tr : List Ev) (T V : ℚ)
      (O : List OutgoingOrderItem) (s' : InMemoryStore) (tr' : List Ev),
      processItems oid s pending total vat outs tr = (.inr (T, V, O), s', tr') →
      T = total + sumPrice s.products pending ∧
      V = vat + sumVat s.products pending ∧
      O = outs ++ specOuts s.products pending ∧
      s'.products = s.products ∧
      s'.orders = s.orders ∧
      ((∀ x ∈ outs, 0 < x.quantity) → ∀ x ∈ O, 0 < x.quantity) ∧
      (∃ recs : List OrderItemRecord,
        (lookupA s'.orderItems oid).getD [] = (lookupA s.orderItems oid).getD [] ++ recs ∧
        recs.map (fun r => (r.productID, r.quantity, r.unitPrice, r.itemVAT)) =
          (specOuts s.products pending).map (fun x => (x.productID, x.quantity, x.price, x.itemVAT))) := by
  intro pending
  induction pending with
  | nil =>
    intro s total vat outs tr T V O s' tr' h
    simp only [processItems, Prod.mk.injEq, Sum.inr.injEq] at h
    obtain ⟨⟨hT, hV, hO⟩, hs, -⟩ := h
    subst hT; subst hV; subst hO; subst hs
    refine ⟨by simp [sumPrice], by simp [sumVat], by simp [specOuts], rfl, rfl,
      fun hout x hx => hout x hx, ⟨[], by simp, by simp [specOuts]⟩⟩
  | cons item rest ih =>
    intro s total vat outs tr T V O s' tr' h
    simp only [processItems] at h
    split at h
    · simp at h
    · simp at h
    · simp at h
    · rename_i product heq
      by_cases hq : item.quantity ≤ 0
      · rw [if_pos hq] at h
        simp at h
      · rw [if_neg hq] at h
        rw [insertOrderItem_fst] at h
        have hlk : lookupA s.products item.productID = some product :=
          getProduct_ok_lookup _ _ _ heq
        obtain ⟨hT, hV, hO, hprod, hord, hpos, recs, hbkt, hmap⟩ :=
          ih _ _ _ _ _ _ _ _ _ _ h
        have hS1 := insertOrderItem_snd s
          ⟨0, oid, item.productID, item.quantity, product.price, toFixed (product.price * product.vatRate) 2⟩
        have hS1prod : (InsertOrderItem s
            ⟨0, oid, item.productID, item.quantity, product.price, toFixed (product.price * product.vatRate) 2⟩).2.products
            = s.products := by rw [hS1]
        have hS1ord : (InsertOrderItem s
            ⟨0, oid, item.productID, item.quantity, product.price, toFixed (product.price * product.vatRate) 2⟩).2.orders
            = s.orders := by rw [hS1]
        have hS1items : (InsertOrderItem s
            ⟨0, oid, item.productID, item.quantity, product.price, toFixed (product.price * product.vatRate) 2⟩).2.orderItems
            = upsert s.orderItems oid ((lookupA s.orderItems oid).getD [] ++
                [⟨s.nextItemID, oid, item.productID, item.quantity, product.price, toFixed (product.price * product.vatRate) 2⟩]) := by
          rw [hS1]
        rw [hS1prod] at hT hV hO hmap
        rw [hS1ord] at hord
        refine ⟨?_, ?_, ?_, hS1prod ▸ hprod, hord, ?_, ?_⟩
        · rw [hT]
          simp only [sumPrice, hlk]
          ring
        · rw [hV]
          simp only [sumVat, hlk]
          ring
        · rw [hO]
          simp only [specOuts, hlk]
          simp [List.append_assoc]
        · intro hout x hx
          refine hpos ?_ x hx
          intro y hy
          rcases List.mem_append.mp hy with hy1 | hy2
          · exact hout y hy1
          · rcases List.mem_singleton.mp hy2 with rfl
            simp only []
            omega
        · refine ⟨⟨s.nextItemID, oid, item.productID, item.quantity, product.price,
            toFixed (product.price * product.vatRate) 2⟩ :: recs, ?_, ?_⟩
          · rw [hbkt, hS1items, lookupA_upsert]
            simp [List.append_assoc]
          · simp only [List.map_cons, hmap, specOuts, hlk]
            simp

/-- The mock header insert never reports an error. -/
theorem insertOrder_fst (s : InMemoryStore) (r : OrderRecord) :
    (InsertOrder s r).1 = none := rfl

/-- The header insert leaves the catalog untouched. -/
theorem insertOrder_products (s : InMemoryStore) (r : OrderRecord) :
    (InsertOrder s r).2.products = s.products := rfl

/-- The header insert leaves the item table untouched. -/
theorem insertOrder_orderItems (s : InMemoryStore) (r : OrderRecord) :
    (InsertOrder s r).2.orderItems = s.orderItems := rfl

/-- The header insert is a plain map write under the order id. -/
theorem insertOrder_orders (s : InMemoryStore) (r : OrderRecord) :
    (InsertOrder s r).2.orders = upsert s.orders r.orderID r := rfl

/-- When the header exists, the totals update succeeds and overwrites
exactly the two totals, each rounded to two decimals. -/
theorem updateTotals_found (s : InMemoryStore) (oid : String) (tp va : ℚ)
    (r : OrderRecord) (h : lookupA s.orders oid = some r) :
    UpdateOrderTotals s oid tp va =
      (none, { s with orders := upsert s.orders oid ⟨r.orderID, toFixed tp 2, toFixed va 2, r.createdAt⟩ }) := by
  simp [UpdateOrderTotals, InMemoryTx.execUpdateTotals, h]

/-- What an accepted order guarantees: the response is built from the
specified rounded sums and response items, the persisted header carries
the same two rounded totals, and the order bucket grew by records whose
fields coincide with the response items. -/
theorem createOrder_created_spec (s : InMemoryStore) (oid : String) (t : Int)
    (items : List IncomingOrderItem) (o : OutgoingOrder)
    (h : (createOrderHandler s oid t items).response = .created o) :
    o = ⟨oid, toFixed (sumPrice s.products items) 2, toFixed (sumVat s.products items) 2,
         specOuts s.products items⟩ ∧
    lookupA (createOrderHandler s oid t items).store.orders oid =
      some ⟨oid, toFixed (sumPrice s.products items) 2, toFixed (sumVat s.products items) 2, t⟩ ∧
    (∃ recs : List OrderItemRecord,
      (lookupA (createOrderHandler s oid t items).store.orderItems oid).getD [] =
        (lookupA s.orderItems oid).getD [] ++ recs ∧
      recs.map (fun r => (r.productID, r.quantity, r.unitPrice, r.itemVAT)) =
        (specOuts s.products items).map (fun x => (x.productID, x.quantity, x.price, x.itemVAT))) ∧
    (∀ x ∈ o.items, 0 < x.quantity) := by
  by_cases hlen : items.length = 0
  · rw [createOrderHandler, if_pos hlen] at h
    cases h
  · rcases hL : processItems oid (InsertOrder s ⟨oid, 0, 0, t⟩).2 items 0 0 []
        [Ev.beginTx, Ev.evInsertOrder oid] with ⟨lr, ls, ltr⟩
    rw [createOrderHandler] at h ⊢
    rw [if_neg hlen] at h ⊢
    simp only [insertOrder_fst, hL] at h ⊢
    cases lr with
    | inl resp =>
      dsimp only at h
      exact absurd h (processItems_inl_ne_created oid items _ 0 0 [] _ resp ls ltr o hL)
    | inr acc =>
      obtain ⟨T, V, O⟩ := acc
      dsimp only at h ⊢
      obtain ⟨hT, hV, hO, hprod, hord, hpos, recs, hbkt, hmap⟩ :=
        processItems_inr oid items _ 0 0 [] _ T V O ls ltr hL
      rw [insertOrder_products] at hT hV hO hmap
      rw [insertOrder_orders] at hord
      rw [insertOrder_orderItems] at hbkt
      have hlookup : lookupA ls.orders oid = some ⟨oid, 0, 0, t⟩ := by
        rw [hord]
        exact lookupA_upsert s.orders oid ⟨oid, 0, 0, t⟩
      rw [updateTotals_found ls oid T V ⟨oid, 0, 0, t⟩ hlookup] at h ⊢
      dsimp only [InMemoryTx.Commit] at h ⊢
      injection h with h
      subst h
      have hT0 : T = sumPrice s.products items := by rw [hT]; ring
      have hV0 : V = sumVat s.products items := by rw [hV]; ring
      have hO0 : O = specOuts s.products items := by rw [hO]; simp
      subst hT0; subst hV0; subst hO0
      refine ⟨rfl, ?_, ⟨recs, hbkt, hmap⟩, ?_⟩
      · exact lookupA_upsert ls.orders oid _
      · intro x hx
        exact hpos (by intro y hy; cases hy) x hx

/-- Closed-form evaluation of toFixed at precision 2, glue for the
concrete runs. -/
theorem toFixed_eval (q : ℚ) (z : Int) (r : ℚ) (h0 : 0 ≤ q)
    (h1 : (z : ℚ) ≤ q * 100 + 1/2) (h2 : q * 100 + 1/2 < z + 1)
    (h3 : (z : ℚ) / 100 = r) : toFixed q 2 = r := by
  rw [toFixed_two_eq q z h0 h1 h2, h3]

/-- A concrete accepted run: two line items against the sample catalog
produce this exact 201 response body. -/
theorem concreteRun :
    (createOrderHandler populatedStore "w" 0 [⟨1, 1⟩, ⟨2, 2⟩]).response =
      CreateResponse.created
        ⟨"w", 1659.97, 365.19, [⟨1, 1, 1499.99, 330⟩, ⟨2, 2, 79.99, 17.60⟩]⟩ := by
  have e1 : toFixed (1499.99 * 0.22 : ℚ) 2 = 330 :=
    toFixed_eval _ 33000 _ (by norm_num) (by norm_num) (by norm_num) (by norm_num)
  have e2 : toFixed (79.99 * 0.22 : ℚ) 2 = 17.60 :=
    toFixed_eval _ 1760 _ (by norm_num) (by norm_num) (by norm_num) (by norm_num)
  have e3 : toFixed (1499.99 + 79.99 * 2 : ℚ) 2 = 1659.97 := by
    have h : (1499.99 + 79.99 * 2 : ℚ) = 1659.97 := by norm_num
    rw [h]
    exact toFixed_eval _ 165997 _ (by norm_num) (by norm_num) (by norm_num) (by norm_num)
  have e4 : toFixed (1499.99 * 0.22 + 79.99 * 0.22 * 2 : ℚ) 2 = 365.19 := by
    have h : (1499.99 * 0.22 + 79.99 * 0.22 * 2 : ℚ) = 365.1934 := by norm_num
    rw [h]
    exact toFixed_eval _ 36519 _ (by norm_num) (by norm_num) (by norm_num) (by norm_num)
  simp [createOrderHandler, processItems, populatedStore, NewInMemoryStore, InMemoryStore.Populate,
    upsert, lookupA, GetProductByID, InMemoryTx.queryRowProduct, InMemoryRow.Scan, scanAssign,
    destAccepts, InsertOrder, InMemoryTx.execInsertOrder, InsertOrderItem,
    InMemoryTx.queryRowInsertItem, UpdateOrderTotals, InMemoryTx.execUpdateTotals,
    InMemoryTx.Commit, e1, e2, e3, e4]

/-- Claim C2: for every accepted order, the returned order_price is the
two-decimal rounding of the sum of unit price times quantity, the
returned order_vat is the two-decimal rounding of the sum of unit price
times VAT rate times quantity, and the order header persisted by the
request carries exactly the same two rounded values (commit is a mock
no-op, so the header at the end of the request is the header as of
commit). -/
theorem accepted_order_totals (s : InMemoryStore) (oid : String) (t : Int)
    (items : List IncomingOrderItem) (o : OutgoingOrder)
    (h : (createOrderHandler s oid t items).response = .created o) :
    o.totalOrderPrice = toFixed (sumPrice s.products items) 2 ∧
    o.vatAmount = toFixed (sumVat s.products items) 2 ∧
    lookupA (createOrderHandler s oid t items).store.orders oid =
      some ⟨oid, toFixed (sumPrice s.products items) 2, toFixed (sumVat s.products items) 2, t⟩ := by
  obtain ⟨ho, hhdr, -, -⟩ := createOrder_created_spec s oid t items o h
  subst ho
  exact ⟨rfl, rfl, hhdr⟩

/-- Witness for C2: the concrete accepted run instantiates the theorem. -/
theorem accepted_order_totals_witness :
    (createOrderHandler populatedStore "w" 0 [⟨1, 1⟩, ⟨2, 2⟩]).response =
      CreateResponse.created ⟨"w", 1659.97, 365.19, [⟨1, 1, 1499.99, 330⟩, ⟨2, 2, 79.99, 17.60⟩]⟩ ∧
    (1659.97 : ℚ) = toFixed (sumPrice populatedStore.products [⟨1, 1⟩, ⟨2, 2⟩]) 2 ∧
    (365.19 : ℚ) = toFixed (sumVat populatedStore.products [⟨1, 1⟩, ⟨2, 2⟩]) 2 ∧
    lookupA (createOrderHandler populatedStore "w" 0 [⟨1, 1⟩, ⟨2, 2⟩]).store.orders "w" =
      some ⟨"w", toFixed (sumPrice populatedStore.products [⟨1, 1⟩, ⟨2, 2⟩]) 2,
        toFixed (sumVat populatedStore.products [⟨1, 1⟩, ⟨2, 2⟩]) 2, 0⟩ :=
  ⟨concreteRun,
   (accepted_order_totals populatedStore "w" 0 [⟨1, 1⟩, ⟨2, 2⟩] _ concreteRun).1,
   (accepted_order_totals populatedStore "w" 0 [⟨1, 1⟩, ⟨2, 2⟩] _ concreteRun).2.1,
   (accepted_order_totals populatedStore "w" 0 [⟨1, 1⟩, ⟨2, 2⟩] _ concreteRun).2.2⟩

/-- Every specified response item comes from a catalog hit and carries
its per-unit two-decimal VAT. -/
theorem specOuts_mem (prods : List (Int × DBProduct)) :
    ∀ (items : List IncomingOrderItem) (x : OutgoingOrderItem),
      x ∈ specOuts prods items →
      ∃ p : DBProduct, lookupA prods x.productID = some p ∧
        x.price = p.price ∧ x.itemVAT = toFixed (p.price * p.vatRate) 2 := by
  intro items
  induction items with
  | nil =>
    intro x hx
    simp [specOuts] at hx
  | cons it rest ih =>
    intro x hx
    simp only [specOuts] at hx
    rcases List.mem_append.mp hx with h1 | h2
    · cases hl : lookupA prods it.productID with
      | some p =>
        rw [hl] at h1
        rcases List.mem_singleton.mp h1 with rfl
        exact ⟨p, hl, rfl, rfl⟩
      | none =>
        rw [hl] at h1
        cases h1
    · exact ih x h2

/-- The sample catalog as a literal association list. -/
theorem populated_products :
    populatedStore.products =
      [(1, ⟨1, "Laptop Pro", 1499.99, 0.22⟩), (2, ⟨2, "Wireless Mouse", 79.99, 0.22⟩),
       (3, ⟨3, "Mechanical Keyboard", 129.99, 0.22⟩), (4, ⟨4, "4K Monitor", 649.50, 0.22⟩),
       (5, ⟨5, "HD Monitor", 150.50, 0.15⟩)] := rfl

/-- For every sample product the per-unit VAT is positive and its
two-decimal rounding stays strictly below twice the unrounded value. -/
theorem populated_vat_gap (pid : Int) (p : DBProduct)
    (h : lookupA populatedStore.products pid = some p) :
    0 < p.price * p.vatRate ∧ toFixed (p.price * p.vatRate) 2 < 2 * (p.price * p.vatRate) := by
  have e1 : toFixed (1499.99 * 0.22 : Rat) 2 = 330 :=
    toFixed_eval _ 33000 _ (by norm_num) (by norm_num) (by norm_num) (by norm_num)
  have e2 : toFixed (79.99 * 0.22 : Rat) 2 = 17.60 :=
    toFixed_eval _ 1760 _ (by norm_num) (by norm_num) (by norm_num) (by norm_num)
  have e3 : toFixed (129.99 * 0.22 : Rat) 2 = 28.60 :=
    toFixed_eval _ 2860 _ (by norm_num) (by norm_num) (by norm_num) (by norm_num)
  have e4 : toFixed (649.50 * 0.22 : Rat) 2 = 142.89 :=
    toFixed_eval _ 14289 _ (by norm_num) (by norm_num) (by norm_num) (by norm_num)
  have e5 : toFixed (150.50 * 0.15 : Rat) 2 = 22.58 :=
    toFixed_eval _ 2258 _ (by norm_num) (by norm_num) (by norm_num) (by norm_num)
  rw [populated_products] at h
  simp only [lookupA] at h
  split at h
  · cases h; constructor
    · norm_num
    · rw [e1]; norm_num
  · split at h
    · cases h; constructor
      · norm_num
      · rw [e2]; norm_num
    · split at h
      · cases h; constructor
        · norm_num
        · rw [e3]; norm_num
      · split at h
        · cases h; constructor
          · norm_num
          · rw [e4]; norm_num
        · split at h
          · cases h; constructor
            · norm_num
            · rw [e5]; norm_num
          · cases h

/-- Claim C3: on every accepted order each returned item carries
vat = toFixed(unit_price * vat_rate, 2) — per unit, not scaled by
quantity — while the order-level order_vat accumulates quantity-scaled
amounts (claim C2 theorem); against the sample catalog, any item with
quantity other than one therefore reports a VAT different from its
contribution unit_price * vat_rate * quantity to order_vat; and the
persisted item records carry exactly the returned fields, the per-unit
two-decimal VAT included. -/
theorem item_vat_per_unit (s : InMemoryStore) (oid : String) (t : Int)
    (items : List IncomingOrderItem) (o : OutgoingOrder)
    (h : (createOrderHandler s oid t items).response = .created o) :
    (∀ x ∈ o.items, ∃ p : DBProduct,
      lookupA s.products x.productID = some p ∧
      x.price = p.price ∧
      x.itemVAT = toFixed (p.price * p.vatRate) 2 ∧
      0 < x.quantity ∧
      (s = populatedStore → x.quantity ≠ 1 →
        x.itemVAT ≠ p.price * p.vatRate * (x.quantity : ℚ))) ∧
    (∃ recs : List OrderItemRecord,
      (lookupA (createOrderHandler s oid t items).store.orderItems oid).getD [] =
        (lookupA s.orderItems oid).getD [] ++ recs ∧
      recs.map (fun r => (r.productID, r.quantity, r.unitPrice, r.itemVAT)) =
        o.items.map (fun x => (x.productID, x.quantity, x.price, x.itemVAT))) := by
  obtain ⟨ho, -, hpersist, hqty⟩ := createOrder_created_spec s oid t items o h
  constructor
  · intro x hx
    have hxs : x ∈ specOuts s.products items := by rw [ho] at hx; exact hx
    obtain ⟨p, hp, hprice, hvat⟩ := specOuts_mem s.products items x hxs
    refine ⟨p, hp, hprice, hvat, hqty x hx, ?_⟩
    rintro rfl hne
    obtain ⟨hpos, hgap⟩ := populated_vat_gap x.productID p hp
    have hq2 : (2 : ℚ) ≤ (x.quantity : ℚ) := by
      have := hqty x hx
      have : (2 : Int) ≤ x.quantity := by omega
      exact_mod_cast this
    have : toFixed (p.price * p.vatRate) 2 < p.price * p.vatRate * (x.quantity : ℚ) := by
      nlinarith
    rw [hvat]
    exact ne_of_lt this
  · obtain ⟨recs, hb, hm⟩ := hpersist
    exact ⟨recs, hb, by rw [hm, ho]⟩

/-- Witness for C3: the theorem instantiated at the concrete run, applied
to its second item, which has quantity 2. -/
theorem item_vat_per_unit_witness :
    ∃ p : DBProduct, lookupA populatedStore.products 2 = some p ∧
      (79.99 : ℚ) = p.price ∧
      (17.60 : ℚ) = toFixed (p.price * p.vatRate) 2 ∧
      (0 : Int) < 2 ∧
      (populatedStore = populatedStore → (2 : Int) ≠ 1 →
        (17.60 : ℚ) ≠ p.price * p.vatRate * ((2 : Int) : ℚ)) :=
  (item_vat_per_unit populatedStore "w" 0 [⟨1, 1⟩, ⟨2, 2⟩] _ concreteRun).1
    ⟨2, 2, 79.99, 17.60⟩ (by simp)

/-- Claim C1, settled against the code by evaluation: on the in-memory
backend commit and rollback are no-ops and writes apply eagerly, so a
three-item order whose second item names the unknown product 999 answers
404 for the product but leaves the placeholder header and the first item
in the store, and a subsequent retrieval of the order id returns 200
with a partial order — not the 404 the claim requires. -/
theorem create_failure_leaves_partial_order :
    (createOrderHandler populatedStore "ord-1" 0 [⟨1, 1⟩, ⟨999, 1⟩, ⟨2, 1⟩]).response =
      CreateResponse.notFound "Product with ID 999 not found" ∧
    lookupA (createOrderHandler populatedStore "ord-1" 0 [⟨1, 1⟩, ⟨999, 1⟩, ⟨2, 1⟩]).store.orders "ord-1" =
      some ⟨"ord-1", 0, 0, 0⟩ ∧
    (lookupA (createOrderHandler populatedStore "ord-1" 0 [⟨1, 1⟩, ⟨999, 1⟩, ⟨2, 1⟩]).store.orderItems "ord-1").getD []
      = [⟨1, "ord-1", 1, 1, 1499.99, 330⟩] ∧
    (getOrderHandler (createOrderHandler populatedStore "ord-1" 0 [⟨1, 1⟩, ⟨999, 1⟩, ⟨2, 1⟩]).store "ord-1").1 =
      GetOrderResponse.ok ⟨"ord-1", 0, 0, [⟨1, 1, 1499.99, 330⟩]⟩ := by
  have e1 : toFixed (1499.99 * 0.22 : ℚ) 2 = 330 :=
    toFixed_eval _ 33000 _ (by norm_num) (by norm_num) (by norm_num) (by norm_num)
  have hmsg : "Product with ID " ++ toString (999 : Int) ++ " not found" =
      "Product with ID 999 not found" := by decide
  refine ⟨?_, ?_, ?_, ?_⟩ <;>
    simp [createOrderHandler, processItems, populatedStore, NewInMemoryStore,
      InMemoryStore.Populate, upsert, lookupA, GetProductByID, InMemoryTx.queryRowProduct,
      InMemoryRow.Scan, scanAssign, destAccepts, InsertOrder, InMemoryTx.execInsertOrder,
      InsertOrderItem, InMemoryTx.queryRowInsertItem, getOrderHandler, GetOrderByID,
      GetOrderItemsByOrderID, InMemoryDB.queryRowOrder, InMemoryDB.queryOrderItems,
      scanItemRows, e1, hmsg]

/-- Claim C4: an order with an empty item list is rejected with 400
before any transaction is begun: the store is returned unchanged and the
trace of store interactions is empty. -/
theorem empty_order_rejected (s : InMemoryStore) (oid : String) (t : Int) :
    createOrderHandler s oid t [] =
      ⟨CreateResponse.badRequest "Order must contain at least one item", s, []⟩ := rfl

/-- Counterexample to claim C5: with a header already stored under an
id, inserting another header with the same id reports success (nil
error) and silently replaces the stored header. -/
theorem insert_duplicate_header_overwrites :
    lookupA dupStore.orders "a" = some ⟨"a", 5, 7, 3⟩ ∧
    (InsertOrder dupStore ⟨"a", 0, 0, 9⟩).1 = none ∧
    lookupA (InsertOrder dupStore ⟨"a", 0, 0, 9⟩).2.orders "a" = some ⟨"a", 0, 0, 9⟩ :=
  ⟨rfl, rfl, rfl⟩

/-- Claim C5 as amended: the in-memory header insert never fails; it
performs an unconditional map write under the order id, replacing any
existing header with that id. -/
theorem insert_header_unconditional (s : InMemoryStore) (order : OrderRecord) :
    (InsertOrder s order).1 = none ∧
    (InsertOrder s order).2 = { s with orders := upsert s.orders order.orderID order } :=
  ⟨rfl, rfl⟩

/-- Claim C6: starting from the mock-mode store, along any interleaving
of atomic store operations an item insert returns the current counter
value, a later insert returns a strictly larger id than an earlier one,
and the item ids stored after any such run are pairwise distinct. -/
theorem item_ids_unique_monotone (ops mid : List TxOp) (oid1 oid2 : String)
    (pid1 q1 pid2 q2 : Int) (up1 iv1 up2 iv2 : ℚ) :
    (InMemoryTx.queryRowInsertItem (applyTxOps populatedStore ops) oid1 pid1 q1 up1 iv1).1.data =
      [GoValue.vInt (applyTxOps populatedStore ops).nextItemID] ∧
    (InMemoryTx.queryRowInsertItem
        (applyTxOps (InMemoryTx.queryRowInsertItem (applyTxOps populatedStore ops) oid1 pid1 q1 up1 iv1).2 mid)
        oid2 pid2 q2 up2 iv2).1.data =
      [GoValue.vInt (applyTxOps (InMemoryTx.queryRowInsertItem (applyTxOps populatedStore ops) oid1 pid1 q1 up1 iv1).2 mid).nextItemID] ∧
    (applyTxOps populatedStore ops).nextItemID <
      (applyTxOps (InMemoryTx.queryRowInsertItem (applyTxOps populatedStore ops) oid1 pid1 q1 up1 iv1).2 mid).nextItemID ∧
    (allItemIDs (InMemoryTx.queryRowInsertItem
        (applyTxOps (InMemoryTx.queryRowInsertItem (applyTxOps populatedStore ops) oid1 pid1 q1 up1 iv1).2 mid)
        oid2 pid2 q2 up2 iv2).2).Nodup := by
  refine ⟨rfl, rfl, ?_, ?_⟩
  · have h1 : (InMemoryTx.queryRowInsertItem (applyTxOps populatedStore ops) oid1 pid1 q1 up1 iv1).2.nextItemID
        = (applyTxOps populatedStore ops).nextItemID + 1 := rfl
    have h2 := nextItemID_le_applyTxOps mid
      (InMemoryTx.queryRowInsertItem (applyTxOps populatedStore ops) oid1 pid1 q1 up1 iv1).2
    omega
  · have hinv1 := itemInv_applyTxOps ops populatedStore itemInv_populated
    have hinv2 := itemInv_insertItem _ oid1 pid1 q1 up1 iv1 hinv1
    have hinv3 := itemInv_applyTxOps mid _ hinv2
    exact (itemInv_insertItem _ oid2 pid2 q2 up2 iv2 hinv3).2

/-- The unsupported destination accepts no value. -/
theorem destAccepts_dOther (v : GoValue) : destAccepts Dest.dOther v = false := by
  cases v <;> rfl

/-- A successful assignment loop copies exactly the stored values, every
one accepted by its destination type: nothing is coerced. -/
theorem scanAssign_ok : ∀ (data : List GoValue) (dests : List Dest) (vals : List GoValue),
    scanAssign data dests = .ok vals →
    vals = data ∧ ∀ pair ∈ data.zip dests, destAccepts pair.2 pair.1 = true := by
  intro data
  induction data with
  | nil =>
    intro dests vals h
    cases dests with
    | nil =>
      simp only [scanAssign] at h
      injection h with h
      subst h
      exact ⟨rfl, by simp⟩
    | cons d ds => cases h
  | cons v vs ih =>
    intro dests vals h
    cases dests with
    | nil => cases h
    | cons d ds =>
      simp only [scanAssign] at h
      by_cases hd : d = Dest.dOther
      · rw [if_pos hd] at h
        cases h
      · rw [if_neg hd] at h
        by_cases hacc : destAccepts d v = true
        · rw [if_pos hacc] at h
          cases hs : scanAssign vs ds with
          | ok rest =>
            rw [hs] at h
            injection h with h
            subst h
            obtain ⟨hv, hall⟩ := ih ds rest hs
            subst hv
            refine ⟨rfl, ?_⟩
            intro pair hp
            rw [List.zip_cons_cons] at hp
            rcases List.mem_cons.mp hp with rfl | hp2
            · simpa using hacc
            · exact hall pair hp2
          | scanError e =>
            rw [hs] at h
            cases h
          | panicked =>
            rw [hs] at h
            cases h
        · rw [if_neg hacc] at h
          cases h

/-- When the first offending position holds a supported destination that
rejects the stored value, the assignment loop panics. -/
theorem scanAssign_panic : ∀ (vs1 : List GoValue) (ds1 : List Dest) (v : GoValue) (d : Dest)
    (vs2 : List GoValue) (ds2 : List Dest),
    vs1.length = ds1.length →
    (∀ pair ∈ vs1.zip ds1, destAccepts pair.2 pair.1 = true) →
    d ≠ Dest.dOther → destAccepts d v = false →
    scanAssign (vs1 ++ v :: vs2) (ds1 ++ d :: ds2) = .panicked := by
  intro vs1
  induction vs1 with
  | nil =>
    intro ds1 v d vs2 ds2 hlen hall hd hacc
    have hds : ds1 = [] := List.length_eq_zero.mp hlen.symm
    subst hds
    simp only [List.nil_append, scanAssign]
    rw [if_neg hd]
    rw [if_neg (by simp [hacc])]
  | cons v1 rest ih =>
    intro ds1 v d vs2 ds2 hlen hall hd hacc
    cases ds1 with
    | nil => simp at hlen
    | cons d1 ds1tail =>
      have h1 : destAccepts d1 v1 = true := hall (v1, d1) (by simp)
      have hd1 : d1 ≠ Dest.dOther := by
        intro hh
        rw [hh, destAccepts_dOther] at h1
        cases h1
      have hrec := ih ds1tail v d vs2 ds2 (by simpa using hlen)
        (fun pair hp => hall pair (by rw [List.zip_cons_cons]; exact List.mem_cons_of_mem _ hp))
        hd hacc
      have step : scanAssign ((v1 :: rest) ++ v :: vs2) ((d1 :: ds1tail) ++ d :: ds2)
          = if d1 = Dest.dOther then ScanOutcome.scanError (.message "unsupported type for scan")
            else if destAccepts d1 v1 then
              match scanAssign (rest ++ v :: vs2) (ds1tail ++ d :: ds2) with
              | .ok r2 => .ok (v1 :: r2)
              | other => other
            else .panicked := rfl
      rw [step, if_neg hd1, if_pos h1, hrec]

/-- Claim C7 as amended: a scan with wrong arity returns an error; a
successful scan copies exactly the stored values with every destination
type matching, never silently coercing; and a supported destination
whose type rejects the stored value makes the scan panic rather than
return an error. -/
theorem scan_amended (r : InMemoryRow) (dests : List Dest) (hnoerr : r.err = none) :
    (dests.length ≠ r.data.length →
      ∃ m, r.Scan dests = .scanError (.message m)) ∧
    (∀ vals, r.Scan dests = .ok vals → vals = r.data ∧
      ∀ pair ∈ r.data.zip dests, destAccepts pair.2 pair.1 = true) ∧
    (∀ vs1 (v : GoValue) vs2 ds1 (d : Dest) ds2,
      r.data = vs1 ++ v :: vs2 → dests = ds1 ++ d :: ds2 →
      vs1.length = ds1.length → dests.length = r.data.length →
      (∀ pair ∈ vs1.zip ds1, destAccepts pair.2 pair.1 = true) →
      d ≠ Dest.dOther → destAccepts d v = false →
      r.Scan dests = .panicked) := by
  refine ⟨?_, ?_, ?_⟩
  · intro hne
    refine ⟨"scan error: expected " ++ toString r.data.length ++ " dest values, got " ++ toString dests.length, ?_⟩
    simp only [InMemoryRow.Scan, hnoerr]
    rw [if_pos hne]
  · intro vals h
    simp only [InMemoryRow.Scan, hnoerr] at h
    by_cases hne : dests.length ≠ r.data.length
    · rw [if_pos hne] at h
      cases h
    · rw [if_neg hne] at h
      exact scanAssign_ok r.data dests vals h
  · intro vs1 v vs2 ds1 d ds2 hdata hdests hlen htot hall hd hacc
    simp only [InMemoryRow.Scan, hnoerr]
    rw [if_neg (by rw [htot]; exact fun hh => hh rfl)]
    rw [hdata, hdests]
    exact scanAssign_panic vs1 ds1 v d vs2 ds2 hlen hall hd hacc

/-- Witness for C7 as amended: two destinations against a one-column row
yield an error. -/
theorem scan_amended_witness :
    ∃ m, InMemoryRow.Scan ⟨[GoValue.vInt 7], none⟩ [Dest.dInt, Dest.dInt] =
      ScanOutcome.scanError (GoErr.message m) :=
  (scan_amended ⟨[GoValue.vInt 7], none⟩ [Dest.dInt, Dest.dInt] rfl).1 (by simp)

/-- Counterexample to claim C7: scanning a float column into a string
destination does not signal an error to the caller — the failed type
assertion panics. -/
theorem scan_type_mismatch_panics :
    InMemoryRow.Scan ⟨[GoValue.vFloat 3.14], none⟩ [Dest.dString] = ScanOutcome.panicked ∧
    ∀ e : GoErr, InMemoryRow.Scan ⟨[GoValue.vFloat 3.14], none⟩ [Dest.dString] ≠ ScanOutcome.scanError e := by
  have h : InMemoryRow.Scan ⟨[GoValue.vFloat 3.14], none⟩ [Dest.dString] = ScanOutcome.panicked := rfl
  refine ⟨h, fun e he => ?_⟩
  rw [h] at he
  cases he

/-- Claim C8: order retrieval leaves the store untouched, and a second
retrieval on the store it returns produces the same response. -/
theorem get_order_readonly_idempotent (s : InMemoryStore) (oid : String) :
    (getOrderHandler s oid).2 = s ∧
    (getOrderHandler (getOrderHandler s oid).2 oid).1 = (getOrderHandler s oid).1 := by
  have hsnd : ∀ s0 : InMemoryStore, (getOrderHandler s0 oid).2 = s0 := by
    intro s0
    dsimp only [getOrderHandler]
    simp only [GetOrderByID]
    split <;> rfl
  exact ⟨hsnd s, by rw [hsnd s]⟩

/-- Scanning the product rows back yields exactly the iterated entries. -/
theorem scanProducts_ok : ∀ l : List (Int × DBProduct),
    scanProductRows (l.map (fun kv =>
      [GoValue.vInt kv.2.id, GoValue.vString kv.2.name, GoValue.vFloat kv.2.price, GoValue.vFloat kv.2.vatRate]))
      = .ok (l.map (fun kv => kv.2)) := by
  intro l
  induction l with
  | nil => rfl
  | cons kv rest ih =>
    simp only [List.map_cons]
    simp [scanProductRows, InMemoryRow.Scan, scanAssign, destAccepts, ih]

/-- The products handler succeeds and returns one public product per
iterated entry, in iteration order. -/
theorem getProductsHandler_ok (s : InMemoryStore) (iter : List (Int × DBProduct)) :
    (getProductsHandler s iter).1 =
      .ok (iter.map (fun kv => ⟨kv.2.id, kv.2.name, kv.2.price, kv.2.vatRate⟩)) := by
  dsimp only [getProductsHandler, GetAllProducts, InMemoryDB.queryProducts]
  rw [scanProducts_ok]
  simp [List.map_map]

/-- Claim C9 as amended: for any iteration order of the unchanged
catalog the listing succeeds and returns the catalog up to permutation,
each product exactly once; an empty catalog yields an empty array, not
an error. -/
theorem list_products_amended (s : InMemoryStore) (iter : List (Int × DBProduct))
    (hperm : List.Perm iter s.products) :
    ∃ ps : List Product,
      (getProductsHandler s iter).1 = .ok ps ∧
      List.Perm ps (s.products.map (fun kv => ⟨kv.2.id, kv.2.name, kv.2.price, kv.2.vatRate⟩)) ∧
      (s.products = [] → ps = []) := by
  refine ⟨iter.map (fun kv => ⟨kv.2.id, kv.2.name, kv.2.price, kv.2.vatRate⟩), ?_, ?_, ?_⟩
  · rw [getProductsHandler_ok]
  · exact hperm.map _
  · intro hempty
    have hiter : iter = [] := List.Perm.eq_nil (hempty ▸ hperm)
    rw [hiter]
    rfl

/-- Witness for C9 as amended: the sample catalog with the identity
iteration order. -/
theorem list_products_amended_witness :
    ∃ ps : List Product,
      (getProductsHandler populatedStore populatedStore.products).1 = .ok ps ∧
      List.Perm ps (populatedStore.products.map (fun kv => ⟨kv.2.id, kv.2.name, kv.2.price, kv.2.vatRate⟩)) ∧
      (populatedStore.products = [] → ps = []) :=
  list_products_amended populatedStore populatedStore.products (List.Perm.refl _)

/-- Counterexample to claim C9: the products listing iterates a Go map,
whose iteration order is randomized run to run; two iteration orders
that are both permutations of the same unchanged catalog give different
response sequences, so the order is not stable across calls. -/
theorem products_order_unstable :
    List.Perm populatedStore.products populatedStore.products ∧
    List.Perm populatedStore.products.reverse populatedStore.products ∧
    (getProductsHandler populatedStore populatedStore.products).1 ≠
      (getProductsHandler populatedStore populatedStore.products.reverse).1 := by
  refine ⟨List.Perm.refl _, List.reverse_perm _, ?_⟩
  intro h
  have hrev : populatedStore.products.reverse =
      [(5, ⟨5, "HD Monitor", 150.50, 0.15⟩), (4, ⟨4, "4K Monitor", 649.50, 0.22⟩),
       (3, ⟨3, "Mechanical Keyboard", 129.99, 0.22⟩), (2, ⟨2, "Wireless Mouse", 79.99, 0.22⟩),
       (1, ⟨1, "Laptop Pro", 1499.99, 0.22⟩)] := rfl
  rw [getProductsHandler_ok, getProductsHandler_ok, hrev, populated_products] at h
  simp only [List.map_cons, List.map_nil] at h
  injection h with h
  injection h with h1 h2
  injection h1 with hid hrest
  exact absurd hid (by decide)

/-- Claim C10: calling Exec directly on the in-memory database executor
returns an error for every statement and argument list and leaves the
store unchanged, and the executor-level reads leave the store unchanged
as well: every write to the in-memory store goes through a transaction
handle obtained from Begin. -/
theorem db_exec_always_errors (s : InMemoryStore) (query : String) (args : List GoValue)
    (oid oid2 : String) (iter : List (Int × DBProduct)) :
    (InMemoryDB.Exec s query args).1 =
      Except.error (GoErr.message "exec should be called on a transaction, not directly on the DB") ∧
    (InMemoryDB.Exec s query args).2 = s ∧
    (InMemoryDB.queryRowOrder s oid).2 = s ∧
    (InMemoryDB.queryProducts s iter).2 = s ∧
    (InMemoryDB.queryOrderItems s oid2).2 = s :=
  ⟨rfl, rfl, rfl, rfl, rfl⟩

end OrderApp

